import Mathlib

/-!
HumanCode client (`src/golang/humancode_client.go`).

A shallow embedding of the Go client and of the parts of the Go standard
library it calls (`crypto/sha256`, `crypto/hmac`, `encoding/hex`,
`encoding/json` for `map[string]string`, `fmt.Sprintf`).

Conventions.
* A Go `string` is a Lean `String` (a sequence of Unicode scalar values, that
  is, well-formed UTF-8); `[]byte(s)` is `utf8Bytes s`, a list of naturals
  below 256.
* A Go `error` is an `Option String` holding the error text; `nil` is `none`.
* A Go pointer result `*T` is an `Option T`; `nil` is `none`.
* `time.Now().UnixMilli()` is an explicit argument `now : Int`.
* The resty client that `NewHumanCodeClient` builds (base URL, debug flag,
  `Content-Type` header) is an explicit argument `post`, a function from the
  request to what `Post` leaves behind; every call returns, next to its two
  Go results, the list of requests it handed to `post`.
* What resty makes of a response that the transport delivered is
  `parseResponseBody`; unmarshalling the body is not modelled, a response
  carries its outcome.
* Standard output (the `fmt.Println(sign)` of `GetSessionId`) is not modelled.
-/

namespace HumanCode

/-! ## `crypto/sha256` -/

/-- Two to the thirty-second: the modulus of 32-bit word arithmetic. -/
def word : Nat := 4294967296

/-- Rotate the 32-bit word `x` right by `n` bits (`bits.RotateLeft32(x, -n)`). -/
def rotr (x n : Nat) : Nat := ((x >>> n) ||| (x <<< (32 - n))) % word

/-- Round constants `_K` of SHA-256. -/
def sha256K : List Nat :=
  [0x428a2f98, 0x71374491, 0xb5c0fbcf, 0xe9b5dba5, 0x3956c25b, 0x59f111f1, 0x923f82a4, 0xab1c5ed5,
   0xd807aa98, 0x12835b01, 0x243185be, 0x550c7dc3, 0x72be5d74, 0x80deb1fe, 0x9bdc06a7, 0xc19bf174,
   0xe49b69c1, 0xefbe4786, 0x0fc19dc6, 0x240ca1cc, 0x2de92c6f, 0x4a7484aa, 0x5cb0a9dc, 0x76f988da,
   0x983e5152, 0xa831c66d, 0xb00327c8, 0xbf597fc7, 0xc6e00bf3, 0xd5a79147, 0x06ca6351, 0x14292967,
   0x27b70a85, 0x2e1b2138, 0x4d2c6dfc, 0x53380d13, 0x650a7354, 0x766a0abb, 0x81c2c92e, 0x92722c85,
   0xa2bfe8a1, 0xa81a664b, 0xc24b8b70, 0xc76c51a3, 0xd192e819, 0xd6990624, 0xf40e3585, 0x106aa070,
   0x19a4c116, 0x1e376c08, 0x2748774c, 0x34b0bcb5, 0x391c0cb3, 0x4ed8aa4a, 0x5b9cca4f, 0x682e6ff3,
   0x748f82ee, 0x78a5636f, 0x84c87814, 0x8cc70208, 0x90befffa, 0xa4506ceb, 0xbef9a3f7, 0xc67178f2]

/-- The eight chaining words `h0 .. h7` of a SHA-256 digest. -/
structure Sha256State where
  a : Nat
  b : Nat
  c : Nat
  d : Nat
  e : Nat
  f : Nat
  g : Nat
  h : Nat

/-- Initial chaining value (`init0 .. init7`). -/
def sha256Init : Sha256State :=
  ⟨0x6a09e667, 0xbb67ae85, 0x3c6ef372, 0xa54ff53a, 0x510e527f, 0x9b05688c, 0x1f83d9ab, 0x5be0cd19⟩

/-- Big-endian 32-bit words of a block of bytes, four bytes per word. -/
def beWords : List Nat → List Nat
  | b0 :: b1 :: b2 :: b3 :: rest => (b0 * 16777216 + b1 * 65536 + b2 * 256 + b3) :: beWords rest
  | _ => []

/-- Extend the message schedule by `n` words; `w` holds the words computed so
far, most recent first. -/
def extendSchedule : Nat → List Nat → List Nat
  | 0, w => w
  | n + 1, w =>
    let v1 := w.getD 1 0
    let t1 := (rotr v1 17 ^^^ rotr v1 19) ^^^ (v1 >>> 10)
    let v2 := w.getD 14 0
    let t2 := (rotr v2 7 ^^^ rotr v2 18) ^^^ (v2 >>> 3)
    extendSchedule n (((t1 + w.getD 6 0 + t2 + w.getD 15 0) % word) :: w)

/-- The 64 schedule words of one 64-byte block, in order. -/
def schedule (block : List Nat) : List Nat :=
  (extendSchedule 48 (beWords block).reverse).reverse

/-- One round of the compression function with round constant `k` and
schedule word `w`. -/
def sha256Round (s : Sha256State) (k w : Nat) : Sha256State :=
  let t1 := s.h + ((rotr s.e 6 ^^^ rotr s.e 11) ^^^ rotr s.e 25)
              + ((s.e &&& s.f) ^^^ ((s.e ^^^ (word - 1)) &&& s.g)) + k + w
  let t2 := ((rotr s.a 2 ^^^ rotr s.a 13) ^^^ rotr s.a 22)
              + (((s.a &&& s.b) ^^^ (s.a &&& s.c)) ^^^ (s.b &&& s.c))
  ⟨(t1 + t2) % word, s.a, s.b, s.c, (s.d + t1) % word, s.e, s.f, s.g⟩

/-- Run the rounds over the paired constants and schedule words. -/
def sha256Rounds (s : Sha256State) : List (Nat × Nat) → Sha256State
  | [] => s
  | (k, w) :: rest => sha256Rounds (sha256Round s k w) rest

/-- Process one 64-byte block (`blockGeneric`, one iteration). -/
def sha256Block (s : Sha256State) (block : List Nat) : Sha256State :=
  let r := sha256Rounds s (sha256K.zip (schedule block))
  ⟨(s.a + r.a) % word, (s.b + r.b) % word, (s.c + r.c) % word, (s.d + r.d) % word,
   (s.e + r.e) % word, (s.f + r.f) % word, (s.g + r.g) % word, (s.h + r.h) % word⟩

/-- Process `n` consecutive 64-byte blocks of `msg`. -/
def sha256Blocks : Nat → Sha256State → List Nat → Sha256State
  | 0, s, _ => s
  | n + 1, s, msg => sha256Blocks n (sha256Block s (msg.take 64)) (msg.drop 64)

/-- Big-endian bytes of `x`, `n` of them. -/
def beBytes : Nat → Nat → List Nat
  | 0, _ => []
  | n + 1, x => (x / 256 ^ n % 256) :: beBytes n x

/-- Padding appended by `checkSum`: `0x80`, zeros up to 56 modulo 64, then the
message length in bits as a 64-bit big-endian integer. -/
def sha256Pad (msg : List Nat) : List Nat :=
  msg ++ 0x80 :: List.replicate ((119 - msg.length % 64) % 64) 0
    ++ beBytes 8 (msg.length * 8 % 18446744073709551616)

/-- The SHA-256 digest of `msg`: 32 bytes. -/
def sha256 (msg : List Nat) : List Nat :=
  let p := sha256Pad msg
  let s := sha256Blocks (p.length / 64) sha256Init p
  beBytes 4 s.a ++ beBytes 4 s.b ++ beBytes 4 s.c ++ beBytes 4 s.d
    ++ beBytes 4 s.e ++ beBytes 4 s.f ++ beBytes 4 s.g ++ beBytes 4 s.h

/-- A running hash (`hash.Hash` over SHA-256): the bytes written so far. -/
structure Sha256Digest where
  written : List Nat

/-- Function `sha256.New()`. -/
def Sha256Digest.new : Sha256Digest := ⟨[]⟩

/-- Function `Write` on a running SHA-256: appends, reports the count and no error. -/
def Sha256Digest.Write (d : Sha256Digest) (p : List Nat) : Sha256Digest × Nat × Option String :=
  (⟨d.written ++ p⟩, p.length, none)

/-- Function `Sum(nil)` on a running SHA-256. -/
def Sha256Digest.Sum (d : Sha256Digest) : List Nat := sha256 d.written

/-! ## `crypto/hmac` -/

/-- Block size of SHA-256 in bytes. -/
def blockSize : Nat := 64

/-- The `hmac` object: both pads and the two running hashes. -/
structure Hmac where
  opad : List Nat
  ipad : List Nat
  outer : Sha256Digest
  inner : Sha256Digest

/-- Function `hmac.New(sha256.New, key)`. -/
def Hmac.new (key : List Nat) : Hmac :=
  let outer := Sha256Digest.new
  let inner := Sha256Digest.new
  let (outer, key) :=
    if key.length > blockSize then
      let o := (outer.Write key).1
      (o, o.Sum)
    else (outer, key)
  let padded := key ++ List.replicate (blockSize - key.length) 0
  let ipad := padded.map (fun b => b ^^^ 0x36)
  let opad := padded.map (fun b => b ^^^ 0x5c)
  ⟨opad, ipad, outer, (inner.Write ipad).1⟩

/-- Function `Write` on the `hmac` object: forwards to the inner hash. -/
def Hmac.Write (m : Hmac) (p : List Nat) : Hmac × Nat × Option String :=
  let r := m.inner.Write p
  ({ m with inner := r.1 }, r.2.1, r.2.2)

/-- Function `Sum(nil)` on the `hmac` object. -/
def Hmac.Sum (m : Hmac) : List Nat :=
  let inSum := m.inner.Sum
  let outer := Sha256Digest.new
  let outer := (outer.Write m.opad).1
  let outer := (outer.Write inSum).1
  outer.Sum

/-- HMAC-SHA256 as RFC 2104 writes it:
`H((K' xor opad) || H((K' xor ipad) || m))`, where `K'` is the key, hashed
first when longer than a block, padded with zeros to a block. -/
def hmacSha256 (key msg : List Nat) : List Nat :=
  let k := if key.length > 64 then sha256 key else key
  let k := k ++ List.replicate (64 - k.length) 0
  sha256 (k.map (fun b => b ^^^ 0x5c) ++ sha256 (k.map (fun b => b ^^^ 0x36) ++ msg))

/-! ## `encoding/hex` and UTF-8 -/

/-- The digit `hextable[n]` of `"0123456789abcdef"`. -/
def hexDigit (n : Nat) : Char :=
  "0123456789abcdef".toList.getD n '0'

/-- Function `hex.EncodeToString`: two lowercase digits per byte, high nibble first. -/
def hexEncodeToString (bs : List Nat) : String :=
  ⟨bs.flatMap (fun b => [hexDigit (b / 16 % 16), hexDigit (b % 16)])⟩

/-- UTF-8 encoding of one code point. -/
def utf8Char (c : Char) : List Nat :=
  let v := c.toNat
  if v < 0x80 then [v]
  else if v < 0x800 then [0xC0 + v / 64, 0x80 + v % 64]
  else if v < 0x10000 then [0xE0 + v / 4096, 0x80 + v / 64 % 64, 0x80 + v % 64]
  else [0xF0 + v / 262144, 0x80 + v / 4096 % 64, 0x80 + v / 64 % 64, 0x80 + v % 64]

/-- The bytes of a string (`[]byte(s)`). -/
def utf8Bytes (s : String) : List Nat := s.toList.flatMap utf8Char

/-! ## `fmt.Sprintf` -/

/-- Decimal rendering of a 64-bit integer (`strconv.FormatInt(i, 10)`, what
the verb `%d` prints): a minus sign for a negative value, then the digits. -/
def formatInt (i : Int) : String := toString i

/-- An operand of `Sprintf`: a string, or an integer with the name of its Go
type. An `error` operand is passed as the string its `Error()` returns. -/
inductive Arg where
  | str (s : String)
  | int (ty : String) (i : Int)

/-- Go type name of an operand, as `%T` prints it. -/
def Arg.typeName : Arg → String
  | .str _ => "string"
  | .int ty _ => ty

/-- Default rendering of an operand, as `%v` prints it. -/
def Arg.value : Arg → String
  | .str s => s
  | .int _ i => formatInt i

/-- Render one operand under one verb. The verbs the client uses are `%s`,
`%d` and `%v`; a verb that does not fit its operand prints Go's bad-verb
marker `%!verb(type=value)`. -/
def formatVerb (verb : Char) (a : Arg) : List Char :=
  if verb = 'v' then a.value.toList
  else match a with
    | .str s =>
      if verb = 's' then s.toList
      else '%' :: '!' :: verb :: '(' :: (a.typeName.toList ++ '=' :: (a.value.toList ++ [')']))
    | .int _ i =>
      if verb = 'd' then (formatInt i).toList
      else '%' :: '!' :: verb :: '(' :: (a.typeName.toList ++ '=' :: (a.value.toList ++ [')']))

/-- Operands left over when the format is exhausted: `%!(EXTRA type=value, ...)`. -/
def extraArgs : List Arg → List Char
  | [] => []
  | args => "%!(EXTRA ".toList
      ++ (", ".toList.intercalate (args.map (fun a => a.typeName.toList ++ '=' :: a.value.toList)))
      ++ [')']

/-- The formatting loop of `Sprintf` (`doPrintf`), without flags, widths or
argument indexes, none of which the client uses. -/
def sprintfAux : List Char → List Arg → List Char
  | [], args => extraArgs args
  | c :: rest, args =>
    if c = '%' then
      match rest, args with
      | [], args => "%!(NOVERB)".toList ++ extraArgs args
      | v :: rest, [] =>
        if v = '%' then '%' :: sprintfAux rest []
        else '%' :: '!' :: v :: ("(MISSING)".toList ++ sprintfAux rest [])
      | v :: rest, a :: args =>
        if v = '%' then '%' :: sprintfAux rest (a :: args)
        else formatVerb v a ++ sprintfAux rest args
    else c :: sprintfAux rest args

/-- Function `fmt.Sprintf(format, args...)`. -/
def Sprintf (format : String) (args : List Arg) : String :=
  ⟨sprintfAux format.toList args⟩

/-! ## `encoding/json`: marshalling a `map[string]string` -/

/-- The double quote. -/
def dquote : Char := Char.ofNat 34

/-- The backslash. -/
def bslash : Char := Char.ofNat 92

/-- Table `htmlSafeSet`: the ASCII characters written without escaping, that
is, everything from the space on except the double quote, the backslash and
the three HTML characters. -/
def htmlSafe (c : Char) : Bool :=
  0x20 ≤ c.toNat && c.toNat < 0x80 && c != dquote && c != bslash &&
    c != '<' && c != '>' && c != '&'

/-- What `appendString` (with HTML escaping on, the default of `Marshal`)
writes for one character of a string: the character itself when it is in
`htmlSafeSet` or is beyond ASCII and is neither U+2028 nor U+2029, an escape
otherwise (the short escapes of backspace and form feed are those of Go 1.22
and later). -/
def jsonEscapeChar (c : Char) : List Char :=
  if c.toNat < 0x80 then
    if htmlSafe c then [c]
    else if c = bslash ∨ c = dquote then [bslash, c]
    else if c.toNat = 8 then [bslash, 'b']
    else if c.toNat = 12 then [bslash, 'f']
    else if c.toNat = 10 then [bslash, 'n']
    else if c.toNat = 13 then [bslash, 'r']
    else if c.toNat = 9 then [bslash, 't']
    else [bslash, 'u', '0', '0', hexDigit (c.toNat / 16), hexDigit (c.toNat % 16)]
  else if c.toNat = 0x2028 ∨ c.toNat = 0x2029 then
    [bslash, 'u', '2', '0', '2', hexDigit (c.toNat % 16)]
  else [c]

/-- Function `appendString`: a JSON string literal. -/
def appendString (s : String) : List Char :=
  dquote :: (s.toList.flatMap jsonEscapeChar ++ [dquote])

/-- Lexicographic order on byte strings: `strings.Compare(a, b) < 0`. -/
def bytesLt : List Nat → List Nat → Bool
  | [], [] => false
  | [], _ :: _ => true
  | _ :: _, [] => false
  | x :: xs, y :: ys => if x < y then true else if y < x then false else bytesLt xs ys

/-- Insert a map entry into a list of entries sorted by key. -/
def insertEntry (e : String × String) : List (String × String) → List (String × String)
  | [] => [e]
  | x :: xs =>
    if bytesLt (utf8Bytes x.1) (utf8Bytes e.1) then x :: insertEntry e xs else e :: x :: xs

/-- The entries of a map sorted by key, as `mapEncoder.encode` orders them. -/
def sortEntries : List (String × String) → List (String × String)
  | [] => []
  | e :: es => insertEntry e (sortEntries es)

/-- The members of a JSON object, comma separated. -/
def jsonMembers : List (String × String) → List Char
  | [] => []
  | [e] => appendString e.1 ++ ':' :: appendString e.2
  | e :: es => appendString e.1 ++ ':' :: (appendString e.2 ++ ',' :: jsonMembers es)

/-- Function `json.Marshal` on a `map[string]string` (given by its entries, keys
distinct): an object whose members are sorted by key, each key and value a
JSON string literal, no whitespace; the error is always `nil`. -/
def jsonMarshal (m : List (String × String)) : String × Option String :=
  (⟨'\x7b' :: (jsonMembers (sortEntries m) ++ ['\x7d'])⟩, none)

/-! ## The client -/

/-- ClientResponse is the envelope of every API response. -/
structure ClientResponse (T : Type) where
  Code : Int
  Msg : String
  Result : T

/-- GetSessionIdResult is the payload of a session response. -/
structure GetSessionIdResult where
  SessionId : String

/-- VerifyResult is the payload of a verification response. -/
structure VerifyResult where
  HumanId : String

/-- ClientConfig holds the configuration for the human code client. -/
structure ClientConfig where
  BaseUrl : String
  Debug : Bool
  AppId : String
  AppKey : String

/-- HumanCodeClient: the configuration; the resty client is passed to each
call as `post`. -/
structure HumanCodeClient where
  config : ClientConfig

/-- A request handed to resty: the argument of `Post` and the bytes given to
`SetBody`. -/
structure Request where
  url : String
  body : String

/-- What `Post` leaves behind: the error it returns, the status code of the
response, and the contents of the struct registered with `SetResult`. -/
structure PostReply (T : Type) where
  err : Option String
  StatusCode : Nat
  result : ClientResponse T

/-- Method `resp.IsError()` of resty: status code above 399. -/
def PostReply.IsError {T : Type} (r : PostReply T) : Bool := decide (r.StatusCode > 399)

/-- The two values a call returns, and the requests it handed to `post`. -/
structure Call (T : Type) where
  result : Option T
  err : Option String
  sent : List Request

/-- Function `io.WriteString(w, s)` on an `hmac` object: `w.Write([]byte(s))`. -/
def ioWriteString (w : Hmac) (s : String) : Hmac × Nat × Option String :=
  w.Write (utf8Bytes s)

/-- Method `genSign`: the hex-encoded HMAC-SHA256 of `data` under the
application key, or the error of the write. -/
def HumanCodeClient.genSign (h : HumanCodeClient) (data : String) : String × Option String :=
  let sha256hash := Hmac.new (utf8Bytes h.config.AppKey)
  let r := ioWriteString sha256hash data
  match r.2.2 with
  | some err => ("", some err)
  | none => (hexEncodeToString r.1.Sum, none)

/-- Body of `GetSessionId`, with the serialiser (`json.Marshal`), the signer
(`h.genSign`), the transport and the clock reading as arguments. The
`fmt.Println(sign)` between the signing and its error check writes to
standard output only and is left out. -/
def GetSessionIdCore (marshal : List (String × String) → String × Option String)
    (genSign : String → String × Option String) (AppId : String)
    (post : Request → PostReply GetSessionIdResult)
    (timeStamp : Int) (nonceStr : String) : Call GetSessionIdResult :=
  let m := marshal [("timestamp", Sprintf "%d" [.int "int64" timeStamp]), ("nonce_str", nonceStr)]
  match m.2 with
  | some err => ⟨none, some (Sprintf "failed to marshal JSON: %v" [.str err]), []⟩
  | none =>
    let postBody := m.1
    let sg := genSign postBody
    match sg.2 with
    | some err => ⟨none, some err, []⟩
    | none =>
      let sign := sg.1
      let req : Request :=
        ⟨Sprintf "/api/session/v2/get_id?app_id=%s&sign=%s" [.str AppId, .str sign], postBody⟩
      let resp := post req
      match resp.err with
      | some err => ⟨none, some (Sprintf "request failed: %v" [.str err]), [req]⟩
      | none =>
        if resp.IsError || resp.result.Code != 0 then
          ⟨none, some (Sprintf "API error: code: %d, msg: %s"
            [.int "int" resp.result.Code, .str resp.result.Msg]), [req]⟩
        else ⟨some resp.result.Result, none, [req]⟩

/-- Method `GetSessionId`: the body above with `json.Marshal` and `genSign`. -/
def HumanCodeClient.GetSessionId (h : HumanCodeClient)
    (post : Request → PostReply GetSessionIdResult) (now : Int) (nonceStr : String) :
    Call GetSessionIdResult :=
  GetSessionIdCore jsonMarshal h.genSign h.config.AppId post now nonceStr

/-- Method `GenRegistrationUrl`. -/
def HumanCodeClient.GenRegistrationUrl (h : HumanCodeClient) (now : Int)
    (sessionId callBackUrl : String) : String × Option String :=
  let timeStamp := now
  (Sprintf "%s/authentication/index.html?session_id=%s&callback_url=%s&ts=%d#/"
    [.str h.config.BaseUrl, .str sessionId, .str callBackUrl, .int "int64" timeStamp], none)

/-- Method `GenVerificationUrl`. -/
def HumanCodeClient.GenVerificationUrl (h : HumanCodeClient) (now : Int)
    (sessionId humanId callBackUrl : String) : String × Option String :=
  let timeStamp := now
  (Sprintf "%s/authentication/index.html?session_id=%s&human_id=%s&callback_url=%s&ts=%d#/"
    [.str h.config.BaseUrl, .str sessionId, .str humanId, .str callBackUrl,
     .int "int64" timeStamp], none)

/-- Body of `Verify`, with the serialiser (`json.Marshal`), the signer
(`h.genSign`), the transport and the clock reading as arguments. -/
def VerifyCore (marshal : List (String × String) → String × Option String)
    (genSign : String → String × Option String) (AppId : String)
    (post : Request → PostReply VerifyResult)
    (timeStamp : Int) (sessionId vCode nonceStr : String) : Call VerifyResult :=
  let m := marshal [("session_id", sessionId), ("vcode", vCode),
    ("timestamp", Sprintf "%d" [.int "int64" timeStamp]), ("nonce_str", nonceStr)]
  match m.2 with
  | some err => ⟨none, some (Sprintf "failed to marshal JSON: %v" [.str err]), []⟩
  | none =>
    let postBody := m.1
    let sg := genSign postBody
    match sg.2 with
    | some err => ⟨none, some err, []⟩
    | none =>
      let sign := sg.1
      let req : Request :=
        ⟨Sprintf "/api/vcode/v2/verify?app_id=%s&sign=%s" [.str AppId, .str sign], postBody⟩
      let resp := post req
      match resp.err with
      | some err => ⟨none, some (Sprintf "request failed: %v" [.str err]), [req]⟩
      | none =>
        if resp.IsError || resp.result.Code != 0 then
          ⟨none, some (Sprintf "API error: code: %d, msg: %s"
            [.int "int" resp.result.Code, .str resp.result.Msg]), [req]⟩
        else ⟨some resp.result.Result, none, [req]⟩

/-- Method `Verify`: the body above with `json.Marshal` and `genSign`. -/
def HumanCodeClient.Verify (h : HumanCodeClient)
    (post : Request → PostReply VerifyResult) (now : Int) (sessionId vCode nonceStr : String) :
    Call VerifyResult :=
  VerifyCore jsonMarshal h.genSign h.config.AppId post now sessionId vCode nonceStr


/-! ## resty: what `Post` makes of a delivered response -/

/-- A response as the HTTP transport delivers it to resty: the status code,
whether the content type is JSON or XML (`IsJSONType(ct) || IsXMLType(ct)`),
and what unmarshalling the body into the zero struct registered with
`SetResult` yields, the filled struct or the decoder's error. -/
structure HttpResponse (T : Type) where
  StatusCode : Nat
  jsonOrXml : Bool
  decoded : Except String (ClientResponse T)

/-- Response middleware `parseResponseBody` of resty v2, for a request that
registered a result struct and no error struct, as both calls of the client
do: status 204 is left alone; a JSON or XML response with a status above 199
and below 300 is unmarshalled into the result struct, and a failure to do so
is the error `Post` returns; every other response leaves the struct at its
zero value, `zero` being the zero value of the payload. -/
def parseResponseBody {T : Type} (zero : T) (res : HttpResponse T) : PostReply T :=
  if res.StatusCode = 204 then ⟨none, res.StatusCode, ⟨0, "", zero⟩⟩
  else if res.jsonOrXml && decide (199 < res.StatusCode) && decide (res.StatusCode < 300) then
    match res.decoded with
    | .ok env => ⟨none, res.StatusCode, env⟩
    | .error e => ⟨some e, res.StatusCode, ⟨0, "", zero⟩⟩
  else ⟨none, res.StatusCode, ⟨0, "", zero⟩⟩

/-! ## `encoding/json`: marshalling a map with string keys in general -/

/-- A Go value as an element of a map handed to `json.Marshal`: a string, an
integer, a boolean, or a value of a channel or function type (named by its Go
type), which JSON cannot encode. -/
inductive GoValue where
  | str (s : String)
  | int (i : Int)
  | bool (b : Bool)
  | chan (ty : String)
  | func (ty : String)

/-- The encoder of one element: a JSON string, a decimal numeral, `true` or
`false`; for a channel or a function the `UnsupportedTypeError`. -/
def encodeValue : GoValue → Except String (List Char)
  | .str s => .ok (appendString s)
  | .int i => .ok (formatInt i).toList
  | .bool b => .ok (if b then "true".toList else "false".toList)
  | .chan ty => .error ("json: unsupported type: " ++ ty)
  | .func ty => .error ("json: unsupported type: " ++ ty)

/-- Insert a map entry into a list of entries sorted by key, for any type of
element. -/
def insertKeyed {α : Type} (e : String × α) : List (String × α) → List (String × α)
  | [] => [e]
  | x :: xs =>
    if bytesLt (utf8Bytes x.1) (utf8Bytes e.1) then x :: insertKeyed e xs else e :: x :: xs

/-- The entries of a map sorted by key, for any type of element. -/
def sortKeyed {α : Type} : List (String × α) → List (String × α)
  | [] => []
  | e :: es => insertKeyed e (sortKeyed es)

/-- The members of a JSON object, comma separated, or the error of the first
element that cannot be encoded. -/
def encodeMembers : List (String × GoValue) → Except String (List Char)
  | [] => .ok []
  | e :: es =>
    match encodeValue e.2 with
    | .error err => .error err
    | .ok v =>
      match es with
      | [] => .ok (appendString e.1 ++ ':' :: v)
      | _ :: _ =>
        match encodeMembers es with
        | .error err => .error err
        | .ok rest => .ok (appendString e.1 ++ ':' :: (v ++ ',' :: rest))

/-- Function `json.Marshal` on a map with string keys and elements of any of
the kinds above: the object with its members sorted by key, or no bytes and
the error of an element that cannot be encoded. -/
def jsonMarshalValues (m : List (String × GoValue)) : String × Option String :=
  match encodeMembers (sortKeyed m) with
  | .ok cs => (⟨'\x7b' :: (cs ++ ['\x7d'])⟩, none)
  | .error err => ("", some err)

/-- A `map[string]string` as a map of values. -/
def stringValues (m : List (String × String)) : List (String × GoValue) :=
  m.map (fun e => (e.1, GoValue.str e.2))

/-! ## Lemmas on the library models -/


theorem beBytes_length (n x : Nat) : (beBytes n x).length = n := by
  induction n with
  | zero => rfl
  | succ n ih => simp [beBytes, ih]

theorem sha256_length (msg : List Nat) : (sha256 msg).length = 32 := by
  simp [sha256, beBytes_length]

theorem hexDigit_mem (n : Nat) : hexDigit (n % 16) ∈ "0123456789abcdef".toList := by
  have h : n % 16 < 16 := Nat.mod_lt _ (by decide)
  interval_cases (n % 16) <;> decide

theorem hexEncodeToString_length (bs : List Nat) :
    (hexEncodeToString bs).length = 2 * bs.length := by
  induction bs with
  | nil => rfl
  | cons b bs ih =>
    simp only [hexEncodeToString, String.length, List.flatMap_cons, List.length_append,
      List.length_cons, List.length_nil] at ih ⊢
    omega

theorem hexEncodeToString_mem (bs : List Nat) :
    ∀ c ∈ (hexEncodeToString bs).toList, c ∈ "0123456789abcdef".toList := by
  intro c hc
  simp only [hexEncodeToString, String.toList, List.mem_flatMap, List.mem_cons,
    List.mem_singleton, List.not_mem_nil, or_false] at hc
  obtain ⟨b, _, hb | hb⟩ := hc
  · rw [hb]; exact hexDigit_mem _
  · rw [hb]; exact hexDigit_mem _

/-- The streaming `hmac` object computes the RFC 2104 function. -/
theorem hmac_sum_eq (key msg : List Nat) :
    ((Hmac.new key).Write msg).1.Sum = hmacSha256 key msg := by
  unfold Hmac.new Hmac.Write Hmac.Sum hmacSha256 Sha256Digest.Write Sha256Digest.Sum
    Sha256Digest.new blockSize
  by_cases hk : key.length > 64 <;> simp [hk]

theorem genSign_eq (h : HumanCodeClient) (data : String) :
    h.genSign data =
      (hexEncodeToString (hmacSha256 (utf8Bytes h.config.AppKey) (utf8Bytes data)), none) := by
  have hw : (ioWriteString (Hmac.new (utf8Bytes h.config.AppKey)) data).2.2 = none := rfl
  unfold HumanCodeClient.genSign
  simp only [hw]
  rw [← hmac_sum_eq]
  rfl

theorem hmacSha256_length (key msg : List Nat) : (hmacSha256 key msg).length = 32 := by
  unfold hmacSha256
  exact sha256_length _

set_option maxRecDepth 100000 in
/-- The model of `genSign` reproduces a published HMAC-SHA256 value: key
`"key"`, message `"The quick brown fox jumps over the lazy dog"`. -/
theorem genSign_known_vector :
    HumanCodeClient.genSign ⟨⟨"", false, "", "key"⟩⟩
        "The quick brown fox jumps over the lazy dog" =
      ("f7bc83f430538424b13298e6aa6fb143ef4d59a14946175997479dbc2d1a3cd8", none) := by
  decide

set_option maxRecDepth 100000 in
/-- The model of SHA-256 reproduces the published digest of `"abc"`. -/
theorem sha256_known_vector :
    hexEncodeToString (sha256 (utf8Bytes "abc")) =
      "ba7816bf8f01cfea414140de5dae2223b00361a396177a9cb410ff61f20015ad" := by
  decide

/-- The model of `json.Marshal` sorts the keys and escapes the quote, the
line feed and the HTML characters. -/
theorem jsonMarshal_example :
    jsonMarshal [("b", "x<y"), ("a", "q\"\n")] =
      ("\x7b\"a\":\"q\\\"\\n\",\"b\":\"x\\u003cy\"\x7d", none) := by
  decide

theorem sprintf_registration (b s c : String) (t : Int) :
    Sprintf "%s/authentication/index.html?session_id=%s&callback_url=%s&ts=%d#/"
        [.str b, .str s, .str c, .int "int64" t] =
      b ++ "/authentication/index.html?session_id=" ++ s ++ "&callback_url=" ++ c
        ++ "&ts=" ++ formatInt t ++ "#/" := by
  apply String.ext
  simp [Sprintf, sprintfAux, formatVerb, extraArgs, String.toList]

theorem sprintf_verification (b s hid c : String) (t : Int) :
    Sprintf "%s/authentication/index.html?session_id=%s&human_id=%s&callback_url=%s&ts=%d#/"
        [.str b, .str s, .str hid, .str c, .int "int64" t] =
      b ++ "/authentication/index.html?session_id=" ++ s ++ "&human_id=" ++ hid
        ++ "&callback_url=" ++ c ++ "&ts=" ++ formatInt t ++ "#/" := by
  apply String.ext
  simp [Sprintf, sprintfAux, formatVerb, extraArgs, String.toList]

theorem middle_occurs (pre suf : List Char) {l mid : List Char} (h : l = pre ++ mid ++ suf) :
    mid <:+: l :=
  ⟨pre, suf, h.symm⟩

theorem digitChar_safe (n : Nat) : jsonEscapeChar (Nat.digitChar (n % 10)) = [Nat.digitChar (n % 10)] := by
  have h : n % 10 < 10 := Nat.mod_lt _ (by decide)
  interval_cases (n % 10) <;> decide

theorem toDigitsCore_safe (fuel : Nat) : ∀ (n : Nat) (acc : List Char),
    (∀ c ∈ acc, jsonEscapeChar c = [c]) →
    ∀ c ∈ Nat.toDigitsCore 10 fuel n acc, jsonEscapeChar c = [c] := by
  induction fuel with
  | zero => intro n acc hacc c hc; simpa [Nat.toDigitsCore] using hacc c hc
  | succ fuel ih =>
    intro n acc hacc c hc
    simp only [Nat.toDigitsCore] at hc
    have hcons : ∀ c ∈ Nat.digitChar (n % 10) :: acc, jsonEscapeChar c = [c] := by
      intro c hc
      rcases List.mem_cons.mp hc with h | h
      · rw [h]; exact digitChar_safe n
      · exact hacc c h
    split at hc
    · exact hcons c hc
    · exact ih _ _ hcons c hc

theorem natRepr_safe (n : Nat) : ∀ c ∈ (Nat.repr n).toList, jsonEscapeChar c = [c] := by
  intro c hc
  have : (Nat.repr n).toList = Nat.toDigits 10 n := by
    simp [Nat.repr, String.toList, List.asString]
  rw [this] at hc
  exact toDigitsCore_safe _ _ _ (by simp) c hc

theorem formatInt_safe (t : Int) : ∀ c ∈ (formatInt t).toList, jsonEscapeChar c = [c] := by
  intro c hc
  cases t with
  | ofNat n => exact natRepr_safe n c hc
  | negSucc n =>
    have : (formatInt (Int.negSucc n)).toList = '-' :: (Nat.repr (n + 1)).toList := rfl
    rw [this] at hc
    rcases List.mem_cons.mp hc with h | h
    · rw [h]; decide
    · exact natRepr_safe _ c h

theorem flatMap_safe (l : List Char) (h : ∀ c ∈ l, jsonEscapeChar c = [c]) :
    l.flatMap jsonEscapeChar = l := by
  induction l with
  | nil => rfl
  | cons a l ih =>
    rw [List.flatMap_cons, h a (List.mem_cons_self _ _),
      ih (fun c hc => h c (List.mem_cons_of_mem _ hc))]
    rfl

theorem appendString_safe (s : String) (h : ∀ c ∈ s.toList, jsonEscapeChar c = [c]) :
    appendString s = dquote :: (s.toList ++ [dquote]) := by
  rw [appendString, flatMap_safe _ h]

theorem sprintf_int (t : Int) : Sprintf "%d" [.int "int64" t] = formatInt t := by
  apply String.ext
  simp [Sprintf, sprintfAux, formatVerb, extraArgs, String.toList]

theorem jsonMarshal_session (ts n : String) (hts : ∀ c ∈ ts.toList, jsonEscapeChar c = [c])
    (hn : ∀ c ∈ n.toList, jsonEscapeChar c = [c]) :
    (jsonMarshal [("timestamp", ts), ("nonce_str", n)]).1 =
      "\x7b\"nonce_str\":\"" ++ n ++ "\",\"timestamp\":\"" ++ ts ++ "\"\x7d" := by
  have k1 : bytesLt (utf8Bytes "nonce_str") (utf8Bytes "timestamp") = true := by decide
  have a1 : appendString "nonce_str" = "\"nonce_str\"".toList := by decide
  have a2 : appendString "timestamp" = "\"timestamp\"".toList := by decide
  apply String.ext
  simp [jsonMarshal, sortEntries, insertEntry, k1, jsonMembers, a1, a2,
    appendString_safe _ hts, appendString_safe _ hn, String.toList, dquote]

theorem jsonMarshal_verify (s v ts n : String) (hs : ∀ c ∈ s.toList, jsonEscapeChar c = [c])
    (hv : ∀ c ∈ v.toList, jsonEscapeChar c = [c])
    (hts : ∀ c ∈ ts.toList, jsonEscapeChar c = [c])
    (hn : ∀ c ∈ n.toList, jsonEscapeChar c = [c]) :
    (jsonMarshal [("session_id", s), ("vcode", v), ("timestamp", ts), ("nonce_str", n)]).1 =
      "\x7b\"nonce_str\":\"" ++ n ++ "\",\"session_id\":\"" ++ s ++ "\",\"timestamp\":\"" ++ ts
        ++ "\",\"vcode\":\"" ++ v ++ "\"\x7d" := by
  have k1 : bytesLt (utf8Bytes "nonce_str") (utf8Bytes "timestamp") = true := by decide
  have k2 : bytesLt (utf8Bytes "nonce_str") (utf8Bytes "vcode") = true := by decide
  have k3 : bytesLt (utf8Bytes "timestamp") (utf8Bytes "vcode") = true := by decide
  have k4 : bytesLt (utf8Bytes "nonce_str") (utf8Bytes "session_id") = true := by decide
  have k5 : bytesLt (utf8Bytes "timestamp") (utf8Bytes "session_id") = false := by decide
  have a1 : appendString "nonce_str" = "\"nonce_str\"".toList := by decide
  have a2 : appendString "timestamp" = "\"timestamp\"".toList := by decide
  have a3 : appendString "session_id" = "\"session_id\"".toList := by decide
  have a4 : appendString "vcode" = "\"vcode\"".toList := by decide
  apply String.ext
  simp [jsonMarshal, sortEntries, insertEntry, k1, k2, k3, k4, k5, jsonMembers, a1, a2, a3, a4,
    appendString_safe _ hts, appendString_safe _ hn, appendString_safe _ hs,
    appendString_safe _ hv, String.toList, dquote]

theorem sprintf_session_url (appId sig : String) :
    Sprintf "/api/session/v2/get_id?app_id=%s&sign=%s" [.str appId, .str sig] =
      "/api/session/v2/get_id?app_id=" ++ appId ++ "&sign=" ++ sig := by
  apply String.ext
  simp [Sprintf, sprintfAux, formatVerb, extraArgs, String.toList]

theorem sprintf_verify_url (appId sig : String) :
    Sprintf "/api/vcode/v2/verify?app_id=%s&sign=%s" [.str appId, .str sig] =
      "/api/vcode/v2/verify?app_id=" ++ appId ++ "&sign=" ++ sig := by
  apply String.ext
  simp [Sprintf, sprintfAux, formatVerb, extraArgs, String.toList]

theorem sprintf_request_failed (e : String) :
    Sprintf "request failed: %v" [.str e] = "request failed: " ++ e := by
  apply String.ext
  simp [Sprintf, sprintfAux, formatVerb, extraArgs, String.toList, Arg.value]

theorem sprintf_api_error (code : Int) (msg : String) :
    Sprintf "API error: code: %d, msg: %s" [.int "int" code, .str msg] =
      "API error: code: " ++ formatInt code ++ ", msg: " ++ msg := by
  apply String.ext
  simp [Sprintf, sprintfAux, formatVerb, extraArgs, String.toList]

/-- What `GetSessionId` returns, by the reply of the transport to its one
request. -/
theorem GetSessionId_eq (h : HumanCodeClient) (post : Request → PostReply GetSessionIdResult)
    (t : Int) (n : String) :
    h.GetSessionId post t n =
      (let B := (jsonMarshal [("timestamp", formatInt t), ("nonce_str", n)]).1
       let req : Request :=
         ⟨"/api/session/v2/get_id?app_id=" ++ h.config.AppId ++ "&sign=" ++ (h.genSign B).1, B⟩
       match (post req).err with
       | some e => ⟨none, some ("request failed: " ++ e), [req]⟩
       | none =>
         if (post req).StatusCode > 399 ∨ (post req).result.Code ≠ 0 then
           ⟨none, some ("API error: code: " ++ formatInt (post req).result.Code ++ ", msg: "
             ++ (post req).result.Msg), [req]⟩
         else ⟨some (post req).result.Result, none, [req]⟩) := by
  have hm : ∀ m, (jsonMarshal m).2 = none := fun _ => rfl
  have hs : ∀ d, (h.genSign d).2 = none := fun d => by rw [genSign_eq]
  simp only [HumanCodeClient.GetSessionId, GetSessionIdCore, hm, hs, sprintf_int,
    sprintf_session_url, sprintf_request_failed, sprintf_api_error, PostReply.IsError]
  split
  · rfl
  · simp only [Bool.or_eq_true, decide_eq_true_eq, bne_iff_ne, ne_eq]

/-- What `Verify` returns, by the reply of the transport to its one request. -/
theorem Verify_eq (h : HumanCodeClient) (post : Request → PostReply VerifyResult)
    (t : Int) (s v n : String) :
    h.Verify post t s v n =
      (let B := (jsonMarshal [("session_id", s), ("vcode", v), ("timestamp", formatInt t),
         ("nonce_str", n)]).1
       let req : Request :=
         ⟨"/api/vcode/v2/verify?app_id=" ++ h.config.AppId ++ "&sign=" ++ (h.genSign B).1, B⟩
       match (post req).err with
       | some e => ⟨none, some ("request failed: " ++ e), [req]⟩
       | none =>
         if (post req).StatusCode > 399 ∨ (post req).result.Code ≠ 0 then
           ⟨none, some ("API error: code: " ++ formatInt (post req).result.Code ++ ", msg: "
             ++ (post req).result.Msg), [req]⟩
         else ⟨some (post req).result.Result, none, [req]⟩) := by
  have hm : ∀ m, (jsonMarshal m).2 = none := fun _ => rfl
  have hs : ∀ d, (h.genSign d).2 = none := fun d => by rw [genSign_eq]
  simp only [HumanCodeClient.Verify, VerifyCore, hm, hs, sprintf_int,
    sprintf_verify_url, sprintf_request_failed, sprintf_api_error, PostReply.IsError]
  split
  · rfl
  · simp only [Bool.or_eq_true, decide_eq_true_eq, bne_iff_ne, ne_eq]

theorem insertKeyed_stringValues (e : String × String) (l : List (String × String)) :
    insertKeyed (e.1, GoValue.str e.2) (stringValues l) = stringValues (insertEntry e l) := by
  induction l with
  | nil => rfl
  | cons x xs ih =>
    simp only [stringValues, List.map_cons, insertKeyed, insertEntry] at ih ⊢
    split
    · simp only [List.map_cons, ih]
    · rfl

theorem sortKeyed_stringValues (m : List (String × String)) :
    sortKeyed (stringValues m) = stringValues (sortEntries m) := by
  induction m with
  | nil => rfl
  | cons e es ih =>
    have h : stringValues (e :: es) = (e.1, GoValue.str e.2) :: stringValues es := rfl
    rw [h, sortKeyed, ih, insertKeyed_stringValues, sortEntries]

theorem encodeMembers_stringValues (m : List (String × String)) :
    encodeMembers (stringValues m) = .ok (jsonMembers m) := by
  induction m with
  | nil => rfl
  | cons e es ih =>
    cases es with
    | nil => rfl
    | cons e2 es2 =>
      have h : stringValues (e :: e2 :: es2) =
          (e.1, GoValue.str e.2) :: (e2.1, GoValue.str e2.2) :: stringValues es2 := rfl
      have h2 : stringValues (e2 :: es2) =
          (e2.1, GoValue.str e2.2) :: stringValues es2 := rfl
      rw [h2] at ih
      rw [h, encodeMembers]
      simp only [encodeValue, ih, jsonMembers]

/-- On a map of strings the general marshaller agrees with `jsonMarshal`. -/
theorem jsonMarshalValues_stringValues (m : List (String × String)) :
    jsonMarshalValues (stringValues m) = jsonMarshal m := by
  simp only [jsonMarshalValues, sortKeyed_stringValues, encodeMembers_stringValues, jsonMarshal]

/-- Which responses fill the result struct. -/
theorem parseResponseBody_eq {T : Type} (z : T) (st : Nat) (ct : Bool)
    (d : Except String (ClientResponse T)) :
    parseResponseBody z ⟨st, ct, d⟩ =
      if 200 ≤ st ∧ st < 300 ∧ st ≠ 204 ∧ ct = true then
        (match d with
         | .ok env => ⟨none, st, env⟩
         | .error e => ⟨some e, st, ⟨0, "", z⟩⟩)
      else ⟨none, st, ⟨0, "", z⟩⟩ := by
  unfold parseResponseBody
  by_cases h204 : st = 204
  · simp [h204]
  · cases ct
    · simp [h204]
    · by_cases h1 : 199 < st
      · by_cases h2 : st < 300
        · have h3 : 200 ≤ st := h1
          simp [h204, h1, h2, h3]
        · simp [h204, h1, h2]
      · have h3 : ¬ 200 ≤ st := h1
        simp [h204, h1, h3]

theorem api_error_zero : "API error: code: " ++ formatInt 0 ++ ", msg: " =
    "API error: code: 0, msg: " := by decide

/-- Outcome of `GetSessionId` on a delivered response. -/
theorem GetSessionId_delivered (h : HumanCodeClient) (t : Int) (n : String) (st : Nat)
    (ct : Bool) (d : Except String (ClientResponse GetSessionIdResult)) :
    ((h.GetSessionId (fun _ => parseResponseBody ⟨""⟩ ⟨st, ct, d⟩) t n).result,
      (h.GetSessionId (fun _ => parseResponseBody ⟨""⟩ ⟨st, ct, d⟩) t n).err) =
      (if 399 < st then (none, some "API error: code: 0, msg: ")
       else if 200 ≤ st ∧ st < 300 ∧ st ≠ 204 ∧ ct = true then
         (match d with
          | .ok env =>
            if env.Code ≠ 0 then
              (none, some ("API error: code: " ++ toString env.Code ++ ", msg: " ++ env.Msg))
            else (some env.Result, none)
          | .error e => (none, some ("request failed: " ++ e)))
       else (some ⟨""⟩, none)) := by
  by_cases hf : 200 ≤ st ∧ st < 300 ∧ st ≠ 204 ∧ ct = true
  · have h4 : ¬ 399 < st := by omega
    rw [if_neg h4, if_pos hf]
    cases d with
    | error e =>
      have hp := parseResponseBody_eq (⟨""⟩ : GetSessionIdResult) st ct (.error e)
      rw [if_pos hf] at hp
      simp only [GetSessionId_eq, hp]
    | ok env =>
      have hp := parseResponseBody_eq (⟨""⟩ : GetSessionIdResult) st ct (.ok env)
      rw [if_pos hf] at hp
      simp only [GetSessionId_eq, hp]
      by_cases hc : env.Code = 0
      · simp [hc, h4]
      · simp [hc, h4, formatInt]
  · have hp := parseResponseBody_eq (⟨""⟩ : GetSessionIdResult) st ct d
    rw [if_neg hf] at hp
    simp only [GetSessionId_eq, hp]
    rw [if_neg hf]
    by_cases h4 : 399 < st
    · simp only [h4, or_true, true_or, if_true, String.append_empty]
      rw [api_error_zero]
    · simp [h4]

/-- Outcome of `Verify` on a delivered response. -/
theorem Verify_delivered (h : HumanCodeClient) (t : Int) (s v n : String) (st : Nat)
    (ct : Bool) (d : Except String (ClientResponse VerifyResult)) :
    ((h.Verify (fun _ => parseResponseBody ⟨""⟩ ⟨st, ct, d⟩) t s v n).result,
      (h.Verify (fun _ => parseResponseBody ⟨""⟩ ⟨st, ct, d⟩) t s v n).err) =
      (if 399 < st then (none, some "API error: code: 0, msg: ")
       else if 200 ≤ st ∧ st < 300 ∧ st ≠ 204 ∧ ct = true then
         (match d with
          | .ok env =>
            if env.Code ≠ 0 then
              (none, some ("API error: code: " ++ toString env.Code ++ ", msg: " ++ env.Msg))
            else (some env.Result, none)
          | .error e => (none, some ("request failed: " ++ e)))
       else (some ⟨""⟩, none)) := by
  by_cases hf : 200 ≤ st ∧ st < 300 ∧ st ≠ 204 ∧ ct = true
  · have h4 : ¬ 399 < st := by omega
    rw [if_neg h4, if_pos hf]
    cases d with
    | error e =>
      have hp := parseResponseBody_eq (⟨""⟩ : VerifyResult) st ct (.error e)
      rw [if_pos hf] at hp
      simp only [Verify_eq, hp]
    | ok env =>
      have hp := parseResponseBody_eq (⟨""⟩ : VerifyResult) st ct (.ok env)
      rw [if_pos hf] at hp
      simp only [Verify_eq, hp]
      by_cases hc : env.Code = 0
      · simp [hc, h4]
      · simp [hc, h4, formatInt]
  · have hp := parseResponseBody_eq (⟨""⟩ : VerifyResult) st ct d
    rw [if_neg hf] at hp
    simp only [Verify_eq, hp]
    rw [if_neg hf]
    by_cases h4 : 399 < st
    · simp only [h4, or_true, true_or, if_true, String.append_empty]
      rw [api_error_zero]
    · simp [h4]

/-! ## The claims -/

/-- C1: for every base URL `b`, session id `s`, callback URL `c` and clock
reading `t`, `GenRegistrationUrl(s, c)` on a client whose `BaseUrl` is `b`
returns the string `b ++ "/authentication/index.html?session_id=" ++ s ++
"&callback_url=" ++ c ++ "&ts=" ++ decimal(t) ++ "#/"` and a nil error, where
`decimal(t)` is the decimal numeral of `t` (`toString t`); with
`b = "https://example.com"`, `s = "sid"`, `c = "cb"` that is
`"https://example.com/authentication/index.html?session_id=sid&callback_url=cb&ts=<t>#/"`,
for instance `...&ts=1700000000000#/` at `t = 1700000000000` and `...&ts=-5#/`
at `t = -5`. -/
theorem C1_GenRegistrationUrl_template (b : String) (dbg : Bool) (appId appKey s c : String)
    (t : Int) :
    HumanCodeClient.GenRegistrationUrl ⟨⟨b, dbg, appId, appKey⟩⟩ t s c =
        (b ++ "/authentication/index.html?session_id=" ++ s ++ "&callback_url=" ++ c
          ++ "&ts=" ++ toString t ++ "#/", none)
    ∧ HumanCodeClient.GenRegistrationUrl ⟨⟨"https://example.com", dbg, appId, appKey⟩⟩ t
          "sid" "cb" =
        ("https://example.com/authentication/index.html?session_id=sid&callback_url=cb&ts="
          ++ toString t ++ "#/", none)
    ∧ HumanCodeClient.GenRegistrationUrl ⟨⟨"https://example.com", dbg, appId, appKey⟩⟩
          1700000000000 "sid" "cb" =
        ("https://example.com/authentication/index.html?session_id=sid&callback_url=cb&ts=1700000000000#/",
          none)
    ∧ HumanCodeClient.GenRegistrationUrl ⟨⟨"https://example.com", dbg, appId, appKey⟩⟩
          (-5) "sid" "cb" =
        ("https://example.com/authentication/index.html?session_id=sid&callback_url=cb&ts=-5#/",
          none) := by
  simp only [HumanCodeClient.GenRegistrationUrl, sprintf_registration, formatInt]
  refine ⟨trivial, ?_, ?_, ?_⟩
  · rfl
  · decide
  · decide

/-- C2: for every base URL `b`, session id `s`, human id `hid`, callback URL
`c` and clock reading `t`, `GenVerificationUrl(s, hid, c)` returns, with a nil
error, `b ++ "/authentication/index.html?session_id=" ++ s ++ "&human_id=" ++
hid ++ "&callback_url=" ++ c ++ "&ts=" ++ decimal(t) ++ "#/"`, where
`decimal(t)` is the decimal numeral of `t` (`toString t`). It is the
registration URL of the same clock reading with `"&human_id=" ++ hid` put in
after the session id, so it contains `"human_id=" ++ hid` and the fields
`session_id`, `callback_url` and `ts` of the registration URL. With
`"https://example.com"`, `"sid"`, `"hid"`, `"cb"` and `t = 1700000000000` it is
`"https://example.com/authentication/index.html?session_id=sid&human_id=hid&callback_url=cb&ts=1700000000000#/"`. -/
theorem C2_GenVerificationUrl_template (b : String) (dbg : Bool) (appId appKey s hid c : String)
    (t : Int) :
    HumanCodeClient.GenVerificationUrl ⟨⟨b, dbg, appId, appKey⟩⟩ t s hid c =
        (b ++ "/authentication/index.html?session_id=" ++ s ++ "&human_id=" ++ hid
          ++ "&callback_url=" ++ c ++ "&ts=" ++ toString t ++ "#/", none)
    ∧ (HumanCodeClient.GenRegistrationUrl ⟨⟨b, dbg, appId, appKey⟩⟩ t s c).1 =
        (b ++ "/authentication/index.html?session_id=" ++ s)
          ++ ("&callback_url=" ++ c ++ "&ts=" ++ toString t ++ "#/")
    ∧ (HumanCodeClient.GenVerificationUrl ⟨⟨b, dbg, appId, appKey⟩⟩ t s hid c).1 =
        (b ++ "/authentication/index.html?session_id=" ++ s) ++ ("&human_id=" ++ hid)
          ++ ("&callback_url=" ++ c ++ "&ts=" ++ toString t ++ "#/")
    ∧ ("human_id=" ++ hid).toList <:+:
        (HumanCodeClient.GenVerificationUrl ⟨⟨b, dbg, appId, appKey⟩⟩ t s hid c).1.toList
    ∧ ("session_id=" ++ s).toList <:+:
        (HumanCodeClient.GenVerificationUrl ⟨⟨b, dbg, appId, appKey⟩⟩ t s hid c).1.toList
    ∧ ("callback_url=" ++ c).toList <:+:
        (HumanCodeClient.GenVerificationUrl ⟨⟨b, dbg, appId, appKey⟩⟩ t s hid c).1.toList
    ∧ ("ts=" ++ toString t).toList <:+:
        (HumanCodeClient.GenVerificationUrl ⟨⟨b, dbg, appId, appKey⟩⟩ t s hid c).1.toList
    ∧ HumanCodeClient.GenVerificationUrl ⟨⟨"https://example.com", dbg, appId, appKey⟩⟩
          1700000000000 "sid" "hid" "cb" =
        ("https://example.com/authentication/index.html?session_id=sid&human_id=hid&callback_url=cb&ts=1700000000000#/",
          none)
    ∧ HumanCodeClient.GenVerificationUrl ⟨⟨"https://example.com", dbg, appId, appKey⟩⟩
          (-5) "sid" "hid" "cb" =
        ("https://example.com/authentication/index.html?session_id=sid&human_id=hid&callback_url=cb&ts=-5#/",
          none) := by
  simp only [HumanCodeClient.GenVerificationUrl, HumanCodeClient.GenRegistrationUrl,
    sprintf_verification, sprintf_registration, formatInt]
  refine ⟨trivial, ?_, ?_, ?_, ?_, ?_, ?_, ?_, ?_⟩
  · apply String.ext; simp [String.toList]
  · apply String.ext; simp [String.toList]
  · apply middle_occurs
      (b ++ "/authentication/index.html?session_id=" ++ s ++ "&").toList
      ("&callback_url=" ++ c ++ "&ts=" ++ toString t ++ "#/").toList
    simp [String.toList]
  · apply middle_occurs (b ++ "/authentication/index.html?").toList
      ("&human_id=" ++ hid ++ "&callback_url=" ++ c ++ "&ts=" ++ toString t ++ "#/").toList
    simp [String.toList]
  · apply middle_occurs
      (b ++ "/authentication/index.html?session_id=" ++ s ++ "&human_id=" ++ hid
        ++ "&").toList
      ("&ts=" ++ toString t ++ "#/").toList
    simp [String.toList]
  · apply middle_occurs
      (b ++ "/authentication/index.html?session_id=" ++ s ++ "&human_id=" ++ hid
        ++ "&callback_url=" ++ c ++ "&").toList
      "#/".toList
    simp [String.toList]
  · decide
  · decide

/-- C3: for every application key `k` and payload `d`, `genSign(d)` on a client
whose `AppKey` is `k` returns, with a nil error, the lowercase hexadecimal
encoding of HMAC-SHA256 with key the bytes of `k` and message the bytes of `d`:
64 characters, each one of `0-9a-f`, the same whatever the other fields of the
configuration are. Four values of HMAC-SHA256 computed outside this
development fix the function: key `"key"` with the pangram; a key of 80 bytes,
longer than a block; a key and a payload with multi-byte characters, the
payload 61 bytes long; the empty key with the empty payload. -/
theorem C3_genSign_hex_hmac (b : String) (dbg : Bool) (appId k d : String) (b2 : String)
    (dbg2 : Bool) (appId2 : String) :
    HumanCodeClient.genSign ⟨⟨b, dbg, appId, k⟩⟩ d =
        (hexEncodeToString (hmacSha256 (utf8Bytes k) (utf8Bytes d)), none)
    ∧ (HumanCodeClient.genSign ⟨⟨b, dbg, appId, k⟩⟩ d).1.length = 64
    ∧ (∀ ch ∈ (HumanCodeClient.genSign ⟨⟨b, dbg, appId, k⟩⟩ d).1.toList,
        ch ∈ "0123456789abcdef".toList)
    ∧ HumanCodeClient.genSign ⟨⟨b, dbg, appId, k⟩⟩ d =
        HumanCodeClient.genSign ⟨⟨b2, dbg2, appId2, k⟩⟩ d
    ∧ HumanCodeClient.genSign ⟨⟨b, dbg, appId, "key"⟩⟩
          "The quick brown fox jumps over the lazy dog" =
        ("f7bc83f430538424b13298e6aa6fb143ef4d59a14946175997479dbc2d1a3cd8", none)
    ∧ HumanCodeClient.genSign
          ⟨⟨b, dbg, appId,
            "kkkkkkkkkkkkkkkkkkkkkkkkkkkkkkkkkkkkkkkkkkkkkkkkkkkkkkkkkkkkkkkkkkkkkkkkkkkkkkkk"⟩⟩
          "Test Using Larger Than Block-Size Key - Hash Key First" =
        ("00ed8afeb48a9345674d8ccf7432bf2c0524ed2a9a4fef849873b1470b99625e", none)
    ∧ HumanCodeClient.genSign ⟨⟨b, dbg, appId, "clé€😀"⟩⟩
          "naïve ☃ 𝄞 payload of sixty bytes in all, more or less.." =
        ("b88513b86baa32c2a10e6ed4c5d34960cb02950aaf15531fe93915db1ea2aed3", none)
    ∧ HumanCodeClient.genSign ⟨⟨b, dbg, appId, ""⟩⟩ "" =
        ("b613679a0814d9ec772f95d778c35fc5ff1697c493715653c6c712144292c5ad", none) := by
  have hcfg : ∀ (k d : String), HumanCodeClient.genSign ⟨⟨b, dbg, appId, k⟩⟩ d =
      HumanCodeClient.genSign ⟨⟨"", false, "", k⟩⟩ d := by
    intro k d; simp only [genSign_eq]
  refine ⟨genSign_eq _ _, ?_, ?_, ?_, ?_, ?_, ?_, ?_⟩
  · rw [genSign_eq]; exact (hexEncodeToString_length _).trans (by rw [hmacSha256_length])
  · rw [genSign_eq]; exact hexEncodeToString_mem _
  · simp only [genSign_eq]
  · rw [hcfg]
    set_option maxRecDepth 100000 in decide
  · rw [hcfg]
    set_option maxRecDepth 100000 in decide
  · rw [hcfg]
    set_option maxRecDepth 100000 in decide
  · rw [hcfg]
    set_option maxRecDepth 100000 in decide

/-- C4, as stated, fails: for the nonce `"123123"` (every character of which
JSON leaves unescaped) and the clock reading `1700000000000`, the body that
`GetSessionId` sends has `nonce_str` first and `timestamp` second, not
`timestamp` first: `json.Marshal` writes the members of a map sorted by key. -/
theorem C4_counterexample :
    (∀ c ∈ "123123".toList, jsonEscapeChar c = [c])
    ∧ (HumanCodeClient.GetSessionId ⟨⟨"https://humancodeai.com", false, "id", "key"⟩⟩
          (fun _ => ⟨none, 200, ⟨0, "", ⟨"abc"⟩⟩⟩) 1700000000000 "123123").sent.map Request.body =
        ["\x7b\"nonce_str\":\"123123\",\"timestamp\":\"1700000000000\"\x7d"]
    ∧ (HumanCodeClient.GetSessionId ⟨⟨"https://humancodeai.com", false, "id", "key"⟩⟩
          (fun _ => ⟨none, 200, ⟨0, "", ⟨"abc"⟩⟩⟩) 1700000000000 "123123").sent.map Request.body ≠
        ["\x7b\"timestamp\":\"1700000000000\",\"nonce_str\":\"123123\"\x7d"] := by
  refine ⟨by decide, ?_, ?_⟩
  · rw [GetSessionId_eq]; decide
  · rw [GetSessionId_eq]; decide

/-- C4, amended: for every nonce `n` made only of characters that JSON string
encoding leaves unescaped, and every clock reading `t`, `GetSessionId(n)`
sends one request, whose body is the `nonce_str` member, then the
`timestamp` member (the keys in sorted order), without whitespace, the
timestamp a JSON string of the decimal value of `t`. -/
theorem C4_GetSessionId_body (h : HumanCodeClient)
    (post : Request → PostReply GetSessionIdResult) (t : Int) (n : String)
    (hn : ∀ c ∈ n.toList, jsonEscapeChar c = [c]) :
    (h.GetSessionId post t n).sent.map Request.body =
      ["\x7b\"nonce_str\":\"" ++ n ++ "\",\"timestamp\":\"" ++ formatInt t ++ "\"\x7d"] := by
  rw [GetSessionId_eq, jsonMarshal_session _ _ (formatInt_safe t) hn]
  dsimp only
  split
  · rfl
  · split <;> rfl

/-- C4, amended, at the nonce `"123123"` and the clock reading `1700000000000`. -/
theorem C4_GetSessionId_body_witness :
    (∀ c ∈ "123123".toList, jsonEscapeChar c = [c])
    ∧ (HumanCodeClient.GetSessionId ⟨⟨"https://humancodeai.com", false, "id", "key"⟩⟩
          (fun _ => ⟨none, 200, ⟨0, "", ⟨"abc"⟩⟩⟩) 1700000000000 "123123").sent.map Request.body =
        ["\x7b\"nonce_str\":\"" ++ "123123" ++ "\",\"timestamp\":\"" ++ formatInt 1700000000000
          ++ "\"\x7d"] :=
  ⟨by decide, C4_GetSessionId_body _ _ _ _ (by decide)⟩

/-- C5, as stated, fails: for the session id `"sid"`, the code `"1234"`, the
nonce `"123123"` and the clock reading `1700000000000`, the body that `Verify`
sends has its members in the order `nonce_str`, `session_id`, `timestamp`,
`vcode`, not `session_id`, `vcode`, `timestamp`, `nonce_str`. -/
theorem C5_counterexample :
    (∀ c ∈ "sid".toList, jsonEscapeChar c = [c])
    ∧ (∀ c ∈ "1234".toList, jsonEscapeChar c = [c])
    ∧ (∀ c ∈ "123123".toList, jsonEscapeChar c = [c])
    ∧ (HumanCodeClient.Verify ⟨⟨"https://humancodeai.com", false, "id", "key"⟩⟩
          (fun _ => ⟨none, 200, ⟨0, "", ⟨"hid"⟩⟩⟩) 1700000000000 "sid" "1234"
          "123123").sent.map Request.body =
        ["\x7b\"nonce_str\":\"123123\",\"session_id\":\"sid\",\"timestamp\":\"1700000000000\",\"vcode\":\"1234\"\x7d"]
    ∧ (HumanCodeClient.Verify ⟨⟨"https://humancodeai.com", false, "id", "key"⟩⟩
          (fun _ => ⟨none, 200, ⟨0, "", ⟨"hid"⟩⟩⟩) 1700000000000 "sid" "1234"
          "123123").sent.map Request.body ≠
        ["\x7b\"session_id\":\"sid\",\"vcode\":\"1234\",\"timestamp\":\"1700000000000\",\"nonce_str\":\"123123\"\x7d"] := by
  refine ⟨by decide, by decide, by decide, ?_, ?_⟩
  · rw [Verify_eq]; decide
  · rw [Verify_eq]; decide

/-- C5, amended: for every session id `s`, verification code `v` and nonce `n`
made only of characters that JSON string encoding leaves unescaped, and every
clock reading `t`, `Verify(s, v, n)` sends one request, whose body has the
four members in the sorted order of their keys, `nonce_str`, `session_id`,
`timestamp`, `vcode`, without whitespace. -/
theorem C5_Verify_body (h : HumanCodeClient) (post : Request → PostReply VerifyResult)
    (t : Int) (s v n : String)
    (hs : ∀ c ∈ s.toList, jsonEscapeChar c = [c])
    (hv : ∀ c ∈ v.toList, jsonEscapeChar c = [c])
    (hn : ∀ c ∈ n.toList, jsonEscapeChar c = [c]) :
    (h.Verify post t s v n).sent.map Request.body =
      ["\x7b\"nonce_str\":\"" ++ n ++ "\",\"session_id\":\"" ++ s ++ "\",\"timestamp\":\""
        ++ formatInt t ++ "\",\"vcode\":\"" ++ v ++ "\"\x7d"] := by
  rw [Verify_eq, jsonMarshal_verify _ _ _ _ hs hv (formatInt_safe t) hn]
  dsimp only
  split
  · rfl
  · split <;> rfl

/-- C5, amended, at `"sid"`, `"1234"`, `"123123"` and the clock reading
`1700000000000`. -/
theorem C5_Verify_body_witness :
    (∀ c ∈ "sid".toList, jsonEscapeChar c = [c])
    ∧ (∀ c ∈ "1234".toList, jsonEscapeChar c = [c])
    ∧ (∀ c ∈ "123123".toList, jsonEscapeChar c = [c])
    ∧ (HumanCodeClient.Verify ⟨⟨"https://humancodeai.com", false, "id", "key"⟩⟩
          (fun _ => ⟨none, 200, ⟨0, "", ⟨"hid"⟩⟩⟩) 1700000000000 "sid" "1234"
          "123123").sent.map Request.body =
        ["\x7b\"nonce_str\":\"" ++ "123123" ++ "\",\"session_id\":\"" ++ "sid"
          ++ "\",\"timestamp\":\"" ++ formatInt 1700000000000 ++ "\",\"vcode\":\"" ++ "1234"
          ++ "\"\x7d"] :=
  ⟨by decide, by decide, by decide,
    C5_Verify_body _ _ _ _ _ _ (by decide) (by decide) (by decide)⟩

/-- C6: for every configuration and every input, `GetSessionId` (respectively
`Verify`) issues one request; its target is `"/api/session/v2/get_id?app_id="
++ AppId ++ "&sign=" ++ sig` (respectively `"/api/vcode/v2/verify?app_id=" ++
AppId ++ "&sign=" ++ sig`), where `sig` is what `genSign` returns, with a nil
error, on the very string `B` that is the body of that request. -/
theorem C6_signature_covers_sent_body (h : HumanCodeClient)
    (post1 : Request → PostReply GetSessionIdResult) (post2 : Request → PostReply VerifyResult)
    (t : Int) (s v n : String) :
    (∃ B sig, h.genSign B = (sig, none)
      ∧ (h.GetSessionId post1 t n).sent =
          [⟨"/api/session/v2/get_id?app_id=" ++ h.config.AppId ++ "&sign=" ++ sig, B⟩])
    ∧ (∃ B sig, h.genSign B = (sig, none)
      ∧ (h.Verify post2 t s v n).sent =
          [⟨"/api/vcode/v2/verify?app_id=" ++ h.config.AppId ++ "&sign=" ++ sig, B⟩]) := by
  constructor
  · refine ⟨(jsonMarshal [("timestamp", formatInt t), ("nonce_str", n)]).1, _, genSign_eq h _, ?_⟩
    rw [GetSessionId_eq]
    simp only [genSign_eq]
    split
    · rfl
    · split <;> rfl
  · refine ⟨(jsonMarshal [("session_id", s), ("vcode", v), ("timestamp", formatInt t),
      ("nonce_str", n)]).1, _, genSign_eq h _, ?_⟩
    rw [Verify_eq]
    simp only [genSign_eq]
    split
    · rfl
    · split <;> rfl

/-- C7, as stated, fails at two delivered responses. At status 500 with a JSON
body that holds the envelope of code 7 and message `"bad nonce"`, the call
fails with `"API error: code: 0, msg: "`, which carries neither: resty
unmarshals the body into the result struct for a status from 200 to 299 only.
At status 200 with a content type that is neither JSON nor XML and the same
envelope in the body, the call succeeds, with the empty result, although the
code is not zero. -/
theorem C7_counterexample :
    (HumanCodeClient.GetSessionId ⟨⟨"https://humancodeai.com", false, "id", "key"⟩⟩
        (fun _ => parseResponseBody ⟨""⟩ ⟨500, true, .ok ⟨7, "bad nonce", ⟨""⟩⟩⟩)
        1700000000000 "123123").err = some "API error: code: 0, msg: "
    ∧ (HumanCodeClient.GetSessionId ⟨⟨"https://humancodeai.com", false, "id", "key"⟩⟩
        (fun _ => parseResponseBody ⟨""⟩ ⟨500, true, .ok ⟨7, "bad nonce", ⟨""⟩⟩⟩)
        1700000000000 "123123").err ≠ some "API error: code: 7, msg: bad nonce"
    ∧ (HumanCodeClient.GetSessionId ⟨⟨"https://humancodeai.com", false, "id", "key"⟩⟩
        (fun _ => parseResponseBody ⟨""⟩ ⟨200, false, .ok ⟨7, "bad nonce", ⟨"abc"⟩⟩⟩)
        1700000000000 "123123").err = none
    ∧ (HumanCodeClient.GetSessionId ⟨⟨"https://humancodeai.com", false, "id", "key"⟩⟩
        (fun _ => parseResponseBody ⟨""⟩ ⟨200, false, .ok ⟨7, "bad nonce", ⟨"abc"⟩⟩⟩)
        1700000000000 "123123").result.map GetSessionIdResult.SessionId = some "" := by
  simp only [GetSessionId_eq]
  decide

/-- C7, amended: for every response that the transport delivers, with HTTP
status `st`, content type JSON or XML or not (`ct`), and a body that
unmarshals to the envelope `code`, `msg`, `result`: resty fills the result
struct from the body when `st` is from 200 to 299, is not 204, and the content
type is JSON or XML, and leaves it at its zero value otherwise. `GetSessionId`
(and likewise `Verify`) fails if and only if `st` is above 399 or the struct's
code is not zero, that is, `st` is above 399, or the struct was filled and
`code` is not zero. For a filled struct the error is
`"API error: code: <code>, msg: <msg>"` with the envelope's code (as a decimal
numeral) and message, and a success returns the envelope's result unchanged
with a nil error; for a status above 399 the error is
`"API error: code: 0, msg: "`; every other response succeeds with the empty
result. A body that fails to unmarshal with error `e`, where the struct would
have been filled, makes the call fail with `"request failed: " ++ e`. At
status 200 and a JSON body, code 7 with `"bad nonce"` gives
`"API error: code: 7, msg: bad nonce"`, and code 0 with session id `"abc"`
gives the session id `"abc"`. -/
theorem C7_outcome_of_delivered_response (h : HumanCodeClient) (t : Int) (s v n : String)
    (st : Nat) (ct : Bool) (code : Int) (msg e : String) (r1 : GetSessionIdResult)
    (r2 : VerifyResult) :
    ((h.GetSessionId (fun _ => parseResponseBody ⟨""⟩ ⟨st, ct, .ok ⟨code, msg, r1⟩⟩) t n).err
        ≠ none ↔
      (399 < st ∨ (200 ≤ st ∧ st < 300 ∧ st ≠ 204 ∧ ct = true ∧ code ≠ 0)))
    ∧ ((h.GetSessionId (fun _ => parseResponseBody ⟨""⟩ ⟨st, ct, .ok ⟨code, msg, r1⟩⟩) t n).result,
        (h.GetSessionId (fun _ => parseResponseBody ⟨""⟩ ⟨st, ct, .ok ⟨code, msg, r1⟩⟩) t n).err) =
        (if 399 < st then (none, some "API error: code: 0, msg: ")
         else if 200 ≤ st ∧ st < 300 ∧ st ≠ 204 ∧ ct = true then
           (if code ≠ 0 then
              (none, some ("API error: code: " ++ toString code ++ ", msg: " ++ msg))
            else (some r1, none))
         else (some ⟨""⟩, none))
    ∧ ((h.Verify (fun _ => parseResponseBody ⟨""⟩ ⟨st, ct, .ok ⟨code, msg, r2⟩⟩) t s v n).err
        ≠ none ↔
      (399 < st ∨ (200 ≤ st ∧ st < 300 ∧ st ≠ 204 ∧ ct = true ∧ code ≠ 0)))
    ∧ ((h.Verify (fun _ => parseResponseBody ⟨""⟩ ⟨st, ct, .ok ⟨code, msg, r2⟩⟩) t s v n).result,
        (h.Verify (fun _ => parseResponseBody ⟨""⟩ ⟨st, ct, .ok ⟨code, msg, r2⟩⟩) t s v n).err) =
        (if 399 < st then (none, some "API error: code: 0, msg: ")
         else if 200 ≤ st ∧ st < 300 ∧ st ≠ 204 ∧ ct = true then
           (if code ≠ 0 then
              (none, some ("API error: code: " ++ toString code ++ ", msg: " ++ msg))
            else (some r2, none))
         else (some ⟨""⟩, none))
    ∧ ((h.GetSessionId (fun _ => parseResponseBody ⟨""⟩ ⟨st, ct, .error e⟩) t n).result,
        (h.GetSessionId (fun _ => parseResponseBody ⟨""⟩ ⟨st, ct, .error e⟩) t n).err) =
        (if 399 < st then (none, some "API error: code: 0, msg: ")
         else if 200 ≤ st ∧ st < 300 ∧ st ≠ 204 ∧ ct = true then
           (none, some ("request failed: " ++ e))
         else (some ⟨""⟩, none))
    ∧ ((h.Verify (fun _ => parseResponseBody ⟨""⟩ ⟨st, ct, .error e⟩) t s v n).result,
        (h.Verify (fun _ => parseResponseBody ⟨""⟩ ⟨st, ct, .error e⟩) t s v n).err) =
        (if 399 < st then (none, some "API error: code: 0, msg: ")
         else if 200 ≤ st ∧ st < 300 ∧ st ≠ 204 ∧ ct = true then
           (none, some ("request failed: " ++ e))
         else (some ⟨""⟩, none))
    ∧ ((h.GetSessionId
          (fun _ => parseResponseBody ⟨""⟩ ⟨200, true, .ok ⟨7, "bad nonce", ⟨""⟩⟩⟩) t n).result,
        (h.GetSessionId
          (fun _ => parseResponseBody ⟨""⟩ ⟨200, true, .ok ⟨7, "bad nonce", ⟨""⟩⟩⟩) t n).err) =
        (none, some "API error: code: 7, msg: bad nonce")
    ∧ ((h.GetSessionId
          (fun _ => parseResponseBody ⟨""⟩ ⟨200, true, .ok ⟨0, "", ⟨"abc"⟩⟩⟩) t n).result,
        (h.GetSessionId
          (fun _ => parseResponseBody ⟨""⟩ ⟨200, true, .ok ⟨0, "", ⟨"abc"⟩⟩⟩) t n).err) =
        (some ⟨"abc"⟩, none) := by
  have g1 := GetSessionId_delivered h t n st ct (.ok ⟨code, msg, r1⟩)
  have g2 := Verify_delivered h t s v n st ct (.ok ⟨code, msg, r2⟩)
  have e1 := congrArg Prod.snd g1
  have e2 := congrArg Prod.snd g2
  simp only at e1 e2
  refine ⟨?_, g1, ?_, g2, GetSessionId_delivered h t n st ct (.error e),
    Verify_delivered h t s v n st ct (.error e), ?_, ?_⟩
  · rw [e1]
    by_cases h4 : 399 < st
    · simp [h4]
    · by_cases hf : 200 ≤ st ∧ st < 300 ∧ st ≠ 204 ∧ ct = true
      · by_cases hc : code = 0
        · simp [h4, hf, hc]
        · simp [h4, hf, hc]
      · rw [if_neg h4, if_neg hf]
        simp only [ne_eq, not_true_eq_false, false_iff, not_or, not_and]
        exact ⟨h4, fun a b c d => absurd ⟨a, b, c, d⟩ hf⟩
  · rw [e2]
    by_cases h4 : 399 < st
    · simp [h4]
    · by_cases hf : 200 ≤ st ∧ st < 300 ∧ st ≠ 204 ∧ ct = true
      · by_cases hc : code = 0
        · simp [h4, hf, hc]
        · simp [h4, hf, hc]
      · rw [if_neg h4, if_neg hf]
        simp only [ne_eq, not_true_eq_false, false_iff, not_or, not_and]
        exact ⟨h4, fun a b c d => absurd ⟨a, b, c, d⟩ hf⟩
  · rw [GetSessionId_delivered]
    rfl
  · rw [GetSessionId_delivered]
    rfl

/-- C8: whatever the serialiser, the signer and the transport do (serialisation
failure, signing failure, transport failure, error status, non-zero code,
success), `GetSessionId` and `Verify` return a nil result exactly when they
return a non-nil error; and when the transport fails with error `e`, they
return no result and the error `"request failed: " ++ e`, whatever status and
envelope accompany the failure. -/
theorem C8_no_result_with_error (marshal : List (String × String) → String × Option String)
    (genSign : String → String × Option String) (appId : String)
    (post1 : Request → PostReply GetSessionIdResult) (post2 : Request → PostReply VerifyResult)
    (h : HumanCodeClient) (t : Int) (s v n e : String) (st : Nat)
    (env1 : ClientResponse GetSessionIdResult) (env2 : ClientResponse VerifyResult) :
    ((GetSessionIdCore marshal genSign appId post1 t n).result = none ↔
        (GetSessionIdCore marshal genSign appId post1 t n).err ≠ none)
    ∧ ((VerifyCore marshal genSign appId post2 t s v n).result = none ↔
        (VerifyCore marshal genSign appId post2 t s v n).err ≠ none)
    ∧ ((h.GetSessionId post1 t n).result = none ↔ (h.GetSessionId post1 t n).err ≠ none)
    ∧ ((h.Verify post2 t s v n).result = none ↔ (h.Verify post2 t s v n).err ≠ none)
    ∧ ((h.GetSessionId (fun _ => ⟨some e, st, env1⟩) t n).result,
        (h.GetSessionId (fun _ => ⟨some e, st, env1⟩) t n).err) =
        (none, some ("request failed: " ++ e))
    ∧ ((h.Verify (fun _ => ⟨some e, st, env2⟩) t s v n).result,
        (h.Verify (fun _ => ⟨some e, st, env2⟩) t s v n).err) =
        (none, some ("request failed: " ++ e)) := by
  have h1 : ∀ (marshal : List (String × String) → String × Option String)
      (genSign : String → String × Option String) (appId : String)
      (post1 : Request → PostReply GetSessionIdResult),
      ((GetSessionIdCore marshal genSign appId post1 t n).result = none ↔
        (GetSessionIdCore marshal genSign appId post1 t n).err ≠ none) := by
    intro marshal genSign appId post1
    unfold GetSessionIdCore
    dsimp only
    split
    · simp
    · split
      · simp
      · split
        · simp
        · split <;> simp
  have h2 : ∀ (marshal : List (String × String) → String × Option String)
      (genSign : String → String × Option String) (appId : String)
      (post2 : Request → PostReply VerifyResult),
      ((VerifyCore marshal genSign appId post2 t s v n).result = none ↔
        (VerifyCore marshal genSign appId post2 t s v n).err ≠ none) := by
    intro marshal genSign appId post2
    unfold VerifyCore
    dsimp only
    split
    · simp
    · split
      · simp
      · split
        · simp
        · split <;> simp
  refine ⟨h1 _ _ _ _, h2 _ _ _ _, h1 _ _ _ _, h2 _ _ _ _, ?_, ?_⟩
  · rw [GetSessionId_eq]
  · rw [Verify_eq]

/-- C9, as stated, fails in its conclusion: the transport delivers a response
of status 200 and a JSON content type whose body does not unmarshal (the
decoder's error being `"unexpected end of JSON input"`, that of an empty
body); `GetSessionId` has sent its one request and fails with
`"request failed: unexpected end of JSON input"`, which is neither a transport
failure nor an API error. -/
theorem C9_counterexample :
    (HumanCodeClient.GetSessionId ⟨⟨"https://humancodeai.com", false, "id", "key"⟩⟩
        (fun _ => parseResponseBody ⟨""⟩ ⟨200, true, .error "unexpected end of JSON input"⟩)
        1700000000000 "123123").err = some "request failed: unexpected end of JSON input"
    ∧ (HumanCodeClient.GetSessionId ⟨⟨"https://humancodeai.com", false, "id", "key"⟩⟩
        (fun _ => parseResponseBody ⟨""⟩ ⟨200, true, .error "unexpected end of JSON input"⟩)
        1700000000000 "123123").result.map GetSessionIdResult.SessionId = none
    ∧ (HumanCodeClient.GetSessionId ⟨⟨"https://humancodeai.com", false, "id", "key"⟩⟩
        (fun _ => parseResponseBody ⟨""⟩ ⟨200, true, .error "unexpected end of JSON input"⟩)
        1700000000000 "123123").sent.length = 1 := by
  simp only [GetSessionId_eq]
  decide

/-- C9, amended: `json.Marshal` returns a nil error on every string-to-string
map (on a map with a channel among its elements it returns an error), and
`genSign` returns a nil error, for every input; so `GetSessionId` and `Verify`
always hand their one request to `Post`, and an error they return is either
`"request failed: " ++ e`, where `e` is the error `Post` returned, or
`"API error: code: <code>, msg: <msg>"`, from the result struct. `Post`
returns an error for a delivered response exactly when that response has a
status from 200 to 299 other than 204, a JSON or XML content type, and a body
that fails to unmarshal; apart from that its errors are failures to carry out
the request. -/
theorem C9_pre_request_failures_unreachable (h : HumanCodeClient)
    (post1 : Request → PostReply GetSessionIdResult) (post2 : Request → PostReply VerifyResult)
    (t : Int) (s v n d e : String) (m : List (String × String))
    (res : HttpResponse GetSessionIdResult) :
    jsonMarshalValues (stringValues m) = jsonMarshal m
    ∧ (jsonMarshalValues (stringValues m)).2 = none
    ∧ jsonMarshalValues [("c", GoValue.chan "chan int")] =
        ("", some "json: unsupported type: chan int")
    ∧ (h.genSign d).2 = none
    ∧ (∃ req, (h.GetSessionId post1 t n).sent = [req]
        ∧ ((h.GetSessionId post1 t n).err = none
          ∨ (∃ e, (post1 req).err = some e
              ∧ (h.GetSessionId post1 t n).err = some ("request failed: " ++ e))
          ∨ ((post1 req).err = none
              ∧ (h.GetSessionId post1 t n).err =
                some ("API error: code: " ++ toString (post1 req).result.Code ++ ", msg: "
                  ++ (post1 req).result.Msg))))
    ∧ (∃ req, (h.Verify post2 t s v n).sent = [req]
        ∧ ((h.Verify post2 t s v n).err = none
          ∨ (∃ e, (post2 req).err = some e
              ∧ (h.Verify post2 t s v n).err = some ("request failed: " ++ e))
          ∨ ((post2 req).err = none
              ∧ (h.Verify post2 t s v n).err =
                some ("API error: code: " ++ toString (post2 req).result.Code ++ ", msg: "
                  ++ (post2 req).result.Msg))))
    ∧ ((parseResponseBody ⟨""⟩ res).err = some e ↔
        (200 ≤ res.StatusCode ∧ res.StatusCode < 300 ∧ res.StatusCode ≠ 204
          ∧ res.jsonOrXml = true ∧ res.decoded = .error e)) := by
  refine ⟨jsonMarshalValues_stringValues m, by rw [jsonMarshalValues_stringValues]; rfl,
    by decide, by rw [genSign_eq], ?_, ?_, ?_⟩
  · refine ⟨⟨"/api/session/v2/get_id?app_id=" ++ h.config.AppId ++ "&sign="
      ++ (h.genSign (jsonMarshal [("timestamp", formatInt t), ("nonce_str", n)]).1).1,
      (jsonMarshal [("timestamp", formatInt t), ("nonce_str", n)]).1⟩, ?_⟩
    rw [GetSessionId_eq]
    dsimp only
    split
    · next e he => exact ⟨rfl, Or.inr (Or.inl ⟨e, he, rfl⟩)⟩
    · next he =>
      split
      · exact ⟨rfl, Or.inr (Or.inr ⟨he, rfl⟩)⟩
      · exact ⟨rfl, Or.inl rfl⟩
  · refine ⟨⟨"/api/vcode/v2/verify?app_id=" ++ h.config.AppId ++ "&sign="
      ++ (h.genSign (jsonMarshal [("session_id", s), ("vcode", v), ("timestamp", formatInt t),
        ("nonce_str", n)]).1).1,
      (jsonMarshal [("session_id", s), ("vcode", v), ("timestamp", formatInt t),
        ("nonce_str", n)]).1⟩, ?_⟩
    rw [Verify_eq]
    dsimp only
    split
    · next e he => exact ⟨rfl, Or.inr (Or.inl ⟨e, he, rfl⟩)⟩
    · next he =>
      split
      · exact ⟨rfl, Or.inr (Or.inr ⟨he, rfl⟩)⟩
      · exact ⟨rfl, Or.inl rfl⟩
  · obtain ⟨st, ct, dec⟩ := res
    rw [parseResponseBody_eq]
    by_cases hf : 200 ≤ st ∧ st < 300 ∧ st ≠ 204 ∧ ct = true
    · rw [if_pos hf]
      cases dec with
      | error e2 =>
        simp only [Option.some.injEq, Except.error.injEq]
        exact ⟨fun he => ⟨hf.1, hf.2.1, hf.2.2.1, hf.2.2.2, he⟩, fun he => he.2.2.2.2⟩
      | ok env =>
        constructor
        · intro he; cases he
        · rintro ⟨_, _, _, _, hne⟩; cases hne
    · rw [if_neg hf]
      constructor
      · intro he; cases he
      · rintro ⟨a, b, c, dd, _⟩; exact absurd ⟨a, b, c, dd⟩ hf

/-- C10: `GenRegistrationUrl` is not injective. For every base URL and clock
reading the argument pairs `("a&callback_url=b", "c")` and
`("a", "b&callback_url=c")` are distinct and yield the same URL, in which the
first pair's session id has supplied the `callback_url` parameter. -/
theorem C10_GenRegistrationUrl_not_injective (b : String) (dbg : Bool) (appId appKey : String)
    (t : Int) :
    (("a&callback_url=b", "c") : String × String) ≠ ("a", "b&callback_url=c")
    ∧ HumanCodeClient.GenRegistrationUrl ⟨⟨b, dbg, appId, appKey⟩⟩ t "a&callback_url=b" "c" =
        HumanCodeClient.GenRegistrationUrl ⟨⟨b, dbg, appId, appKey⟩⟩ t "a" "b&callback_url=c"
    ∧ (HumanCodeClient.GenRegistrationUrl ⟨⟨b, dbg, appId, appKey⟩⟩ t "a&callback_url=b" "c").1 =
        b ++ "/authentication/index.html?session_id=a&callback_url=b&callback_url=c&ts="
          ++ formatInt t ++ "#/" := by
  simp only [HumanCodeClient.GenRegistrationUrl, sprintf_registration]
  refine ⟨by decide, ?_, ?_⟩
  · congr 1; apply String.ext; simp [String.toList]
  · apply String.ext; simp [String.toList]

end HumanCode
